import Mathlib

/-!
Shallow embedding of the QueryFlow client-side request-caching and
mutation-orchestration engine, together with proofs about its cache store,
lifecycle state machine, request coordinator and query/mutation controllers.

Each definition is translated from the TypeScript source:
* `CacheManager` (get/set/update/invalidate/invalidateRelated/setMeta and the
  relationship heuristic `isRelated`) from `src/plugins` (cache-manager);
* `StateMachine` (transition/isValidTransition/history) from
  `src/core/state-machine`;
* `RequestHandler` (in-flight dedup map, `withRetry`) from the
  request-handler plugin;
* `generateCacheKey` from `src/core/url-parser`;
* `QueryInstance.fetch`/`fetchSafe` decision structure from `src/query.ts`;
* `MutationInstance.mutate` (optimistic apply, rollback event emission,
  invalidation dispatch) from `src/subscribe-transports.ts`, with the kernel
  event registrations of the cache-manager plugin.

JavaScript `Map`s are modelled as insertion-ordered association lists,
`Date.now()` as an explicit `now : Int` argument, promises/exceptions as
`Except`, and the `undefined`-able arguments as `Option`.
-/

namespace QueryFlow

/-- Decidable equality for `Except`, used to evaluate concrete runs. -/
instance {ε α : Type} [DecidableEq ε] [DecidableEq α] :
    DecidableEq (Except ε α) := fun x y =>
  match x, y with
  | .ok a, .ok b =>
    if h : a = b then isTrue (by rw [h]) else isFalse (by simp [h])
  | .ok _, .error _ => isFalse (by simp)
  | .error _, .ok _ => isFalse (by simp)
  | .error a, .error b =>
    if h : a = b then isTrue (by rw [h]) else isFalse (by simp [h])

/-! ## String helpers modelling the JS regex operations used by the cache -/

/-- Does `hay` contain `pat` as a contiguous substring?
Models JS `String.prototype.includes`. -/
def listContains (pat : List Char) : List Char → Bool
  | [] => pat.isPrefixOf []
  | c :: rest => pat.isPrefixOf (c :: rest) || listContains pat rest

def notSlash (c : Char) : Bool := c != '/'

/-- Structural worker for `stripParamSegs`.  Every step consumes at least one
character while spending one unit of fuel, so fuel equal to the input length
is never exhausted (the fuel-out branch is unreachable). -/
def stripParamSegsAux : Nat → List Char → List Char
  | 0, l => l
  | _ + 1, [] => []
  | fuel + 1, '/' :: ':' :: c :: rest' =>
    if c = '/' then '/' :: stripParamSegsAux fuel (':' :: c :: rest')
    else stripParamSegsAux fuel (rest'.dropWhile notSlash)
  | fuel + 1, c :: rest => c :: stripParamSegsAux fuel rest

/-- One global replace of the regex `/\/:[^/]+/g` with the empty string:
every `/`-`:`-run-of-non-slash segment is deleted, scanning left to right
(models `url.replace(/\/:[^/]+/g, '')` in `CacheManager.isRelated`). -/
def stripParamSegs (l : List Char) : List Char :=
  stripParamSegsAux l.length l

def isIdentStart (c : Char) : Bool := c.isAlpha || c = '_'

def isIdentChar (c : Char) : Bool := c.isAlphanum || c = '_'

/-- Structural worker for `extractParams` (fuel as in `stripParamSegsAux`). -/
def extractParamsAux : Nat → List Char → List String
  | 0, _ => []
  | _ + 1, [] => []
  | fuel + 1, ':' :: c :: rest' =>
    if isIdentStart c then
      String.mk (c :: rest'.takeWhile isIdentChar)
        :: extractParamsAux fuel (rest'.dropWhile isIdentChar)
    else extractParamsAux fuel (c :: rest')
  | fuel + 1, _ :: rest => extractParamsAux fuel rest

/-- Structural worker for `dedupKeepFirst` (fuel as above). -/
def dedupKeepFirstAux : Nat → List String → List String
  | 0, l => l
  | _ + 1, [] => []
  | fuel + 1, x :: rest => x :: dedupKeepFirstAux fuel (rest.filter fun y => y != x)

/-- JS `Set` insertion order: keep the first occurrence of each element. -/
def dedupKeepFirst (l : List String) : List String :=
  dedupKeepFirstAux l.length l

/-- All matches of `/:([a-zA-Z_][a-zA-Z0-9_]*)/g`, deduplicated keeping the
first occurrence: the identifiers after each `:` sigil, left to right
(models `CacheManager.extractParams`, which collects them into a `Set`). -/
def extractParams (url : List Char) : List String :=
  dedupKeepFirst (extractParamsAux url.length url)

/-- First match of the regex `` :name([^/]|$) `` in `hay`: the captured group,
i.e. the single character following `:name` when it is not a `/`, or `""` when
`:name` sits at the end of the string (models `CacheManager.getParamValues`'s
per-parameter regex). `pat` is the literal `:name`. -/
def findParamValue (pat : List Char) : List Char → Option String
  | [] => none
  | c :: rest =>
    if pat.isPrefixOf (c :: rest) then
      match (c :: rest).drop pat.length with
      | [] => some ""
      | d :: _ => if d = '/' then findParamValue pat rest else some (String.mk [d])
    else findParamValue pat rest

/-- The record built by `CacheManager.getParamValues`: for each parameter name
that matches, associate its captured value. -/
def getParamValues (url : List Char) (params : List String) : List (String × String) :=
  params.filterMap fun p => (findParamValue (':' :: p.data) url).map fun v => (p, v)

/-! ## Association lists with JS `Map` semantics -/

/-- `Map.prototype.set`: replace in place when the key exists (keeping its
insertion position), append otherwise. -/
def mapSet {β : Type} : List (String × β) → String → β → List (String × β)
  | [], k, v => [(k, v)]
  | (k', v') :: rest, k, v =>
    if k' = k then (k, v) :: rest else (k', v') :: mapSet rest k v

/-- `Map.prototype.get` (absent = `undefined`). -/
def mapGet {β : Type} : List (String × β) → String → Option β
  | [], _ => none
  | (k', v') :: rest, k => if k' = k then some v' else mapGet rest k

/-- `Map.prototype.delete`. -/
def mapDelete {β : Type} : List (String × β) → String → List (String × β)
  | [], _ => []
  | (k', v') :: rest, k =>
    if k' = k then rest else (k', v') :: mapDelete rest k

/-! ## The CacheManager (cache-manager plugin) -/

/-- `CacheEntry` from the cache-manager plugin: `{data, timestamp, staleTime,
cacheTime}`. -/
structure CacheEntry (α : Type) where
  data : α
  timestamp : Int
  staleTime : Int
  cacheTime : Int
deriving DecidableEq

/-- `CacheMeta`: `{url, params}` relationship metadata stored per key. -/
structure CacheMeta where
  url : String
  params : List (String × String)
deriving DecidableEq

/-- The `CacheManager`'s two private `Map`s. -/
structure CacheManager (α : Type) where
  cache : List (String × CacheEntry α) := []
  meta : List (String × CacheMeta) := []
deriving DecidableEq

def CacheManager.empty {α : Type} : CacheManager α := {}

/-- `isStale(entry)`: `now - entry.timestamp > entry.staleTime`. -/
def isStale {α : Type} (e : CacheEntry α) (now : Int) : Bool :=
  now - e.timestamp > e.staleTime

/-- `CacheManager.get`: `undefined` when the entry is missing or stale,
the stored data otherwise.  Never mutates the store. -/
def cmGet {α : Type} (s : CacheManager α) (key : String) (now : Int) : Option α :=
  match mapGet s.cache key with
  | none => none
  | some e => if isStale e now then none else some e.data

/-- `CacheManager.set`: upsert with `staleTime ?? 5000` and
`cacheTime ?? 300000`, stamping `Date.now()`. Does not touch `meta`. -/
def cmSet {α : Type} (s : CacheManager α) (key : String) (data : α)
    (staleTime cacheTime : Option Int) (now : Int) : CacheManager α :=
  let entry : CacheEntry α := ⟨data, now, staleTime.getD 5000, cacheTime.getD 300000⟩
  { s with cache := mapSet s.cache key entry }

/-- `CacheManager.setMeta`. -/
def cmSetMeta {α : Type} (s : CacheManager α) (key : String) (m : CacheMeta) :
    CacheManager α :=
  { s with meta := mapSet s.meta key m }

/-- `CacheManager.has`. -/
def cmHas {α : Type} (s : CacheManager α) (key : String) : Bool :=
  (mapGet s.cache key).isSome

/-- `CacheManager.keys`. -/
def cmKeys {α : Type} (s : CacheManager α) : List String :=
  s.cache.map Prod.fst

/-- `CacheManager.size`. -/
def cmSize {α : Type} (s : CacheManager α) : Nat :=
  s.cache.length

/-- The cache errors thrown by `CacheManager.update` (both are `CacheError`
values in the source, distinguished by their message). -/
inductive CacheErr where
  | notFound (key : String)
  | updateFailed (key : String)
deriving DecidableEq

/-- The source's `CacheError` message for each case. -/
def CacheErr.message : CacheErr → String
  | .notFound key => "Cache entry \x22" ++ key ++ "\x22 not found"
  | .updateFailed key => "Failed to update cache entry \x22" ++ key ++ "\x22"

/-- `CacheManager.update(key, updater)`: throws `NotFound` when the key is
absent, runs the updater and writes its result in place, and converts an
updater exception into `UpdateFailed` (the entry keeps its prior data, since
the assignment never executed). The store component of the result is the
store after the call; it is unchanged on either error. -/
def cmUpdate {α : Type} (s : CacheManager α) (key : String)
    (updater : α → Except Unit α) : CacheManager α × Except CacheErr Unit :=
  match mapGet s.cache key with
  | none => (s, .error (.notFound key))
  | some e =>
    match updater e.data with
    | .error _ => (s, .error (.updateFailed key))
    | .ok d => ({ s with cache := mapSet s.cache key { e with data := d } }, .ok ())

/-- Split a glob pattern at `*` (each `*` becomes `.*` in the source's regex). -/
def splitStar (p : List Char) : List (List Char) :=
  p.splitOn '*'

/-- Remainder of `hay` after the first occurrence of `pat`, if any. -/
def findAfter (pat : List Char) : List Char → Option (List Char)
  | [] => if pat.isPrefixOf ([] : List Char) then some [] else none
  | c :: rest =>
    if pat.isPrefixOf (c :: rest) then some ((c :: rest).drop pat.length)
    else findAfter pat rest

/-- Unanchored test of the regex `seg₀.*seg₁.*…` against `hay`, for literal
segments (models `new RegExp(pattern.replace(/\*/g, '.*')).test(key)` for
patterns whose only regex metacharacter is `*`). -/
def globTest (hay : List Char) : List (List Char) → Bool
  | [] => true
  | seg :: rest =>
    match findAfter seg hay with
    | none => false
    | some rem => globTest rem rest

/-- The argument of `CacheManager.invalidate`: a glob string or an ordered
segment list joined with `:`. -/
inductive InvalidateArg where
  | pat (p : String)
  | segs (xs : List String)
deriving DecidableEq

/-- `CacheManager.invalidate`: delete every key matching the glob, or the
single compound key `segments.join(':')`; deletes from both maps. -/
def cmInvalidate {α : Type} (s : CacheManager α) : InvalidateArg → CacheManager α
  | .pat p =>
    let dead := fun (k : String) => globTest k.data (splitStar p.data)
    { cache := s.cache.filter (fun kv => !dead kv.1),
      meta := s.meta.filter (fun kv => !dead kv.1) }
  | .segs xs =>
    let key := String.intercalate ":" xs
    { cache := mapDelete s.cache key, meta := mapDelete s.meta key }

/-- JS `===` between two possibly-`undefined` strings. -/
def jsStrictEq : Option String → Option String → Bool
  | some x, some y => x = y
  | none, none => true
  | _, _ => false

/-- `CacheManager.isRelated(url1, url2, params2)` — the relationship
heuristic, clause for clause:
1. identical templates are never related;
2. if both contain `/:id/`, related iff the resolved `id` values agree
   (`===` comparison of the regex-captured value with `params2.id`);
3. else related iff one side starts with the other's parameter-stripped
   literal stem. -/
def isRelated (url1 url2 : String) (params2 : List (String × String)) : Bool :=
  if url1 = url2 then false
  else
    let params1 := extractParams url1.data
    let values1 := getParamValues url1.data params1
    if listContains "/:id/".data url1.data && listContains "/:id/".data url2.data then
      jsStrictEq (mapGet values1 "id") (mapGet params2 "id")
    else if (stripParamSegs url2.data).isPrefixOf url1.data then true
    else if (stripParamSegs url1.data).isPrefixOf url2.data then true
    else false

/-- `CacheManager.invalidateRelated(url)`: collect every key whose stored
metadata is judged related to `url`, then delete those keys from both maps. -/
def cmInvalidateRelated {α : Type} (s : CacheManager α) (url : String) :
    CacheManager α :=
  let related := (s.meta.filter fun km => isRelated url km.2.url km.2.params).map Prod.fst
  { cache := s.cache.filter (fun kv => !related.contains kv.1),
    meta := s.meta.filter (fun kv => !related.contains kv.1) }

/-! ## Typed errors (`src/errors.ts`) -/

/-- The `QueryFlowError` hierarchy, carrying the data each subclass stores. -/
inductive JsErr where
  | network (msg : String)
  | timeout (ms : Int)
  | validation (msg : String)
  | cacheErr (e : CacheErr)
  | generic (msg : String)
deriving DecidableEq

/-! ## Lifecycle state machine (`src/core/state-machine`) -/

/-- The five lifecycle states. -/
inductive Phase where
  | idle
  | loading
  | success
  | error
  | stale
deriving DecidableEq

/-- The `valid` transition table of `StateMachine.isValidTransition`, as the
record-of-target-lists it is written as. -/
def validTargets : Phase → List Phase
  | .idle => [.loading]
  | .loading => [.success, .error]
  | .success => [.loading, .stale]
  | .error => [.loading, .idle]
  | .stale => [.loading]

/-- `StateMachine.isValidTransition`: `valid[from]?.includes(to)`. -/
def isValidTransition (src dst : Phase) : Bool :=
  (validTargets src).contains dst

/-- `StateSnapshot`: `{state, data, error, timestamp}`. -/
structure Snapshot (α : Type) where
  state : Phase
  data : Option α
  error : Option JsErr
  timestamp : Int
deriving DecidableEq

/-- The `StateMachine`'s mutable fields (listeners carry no state that the
claims concern; notification is synchronous fan-out). -/
structure StateMachine (α : Type) where
  state : Phase := .idle
  data : Option α := none
  error : Option JsErr := none
  history : List (Snapshot α) := []
deriving DecidableEq

/-- A fresh machine: `idle`, no data, no error, empty history. -/
def StateMachine.initial {α : Type} : StateMachine α := {}

/-- The error thrown on an invalid transition
(`Invalid state transition: from -> to`). -/
inductive TransErr where
  | invalidTransition (src dst : Phase)
deriving DecidableEq

/-- `StateMachine.transition(newState, data?, error?)`: validate against the
table (throwing before any mutation on violation); on success set the state,
merge `data ?? this.data` and `error ?? null`, append the immutable snapshot
and return it.  The first component is the machine after the call — unchanged
when the transition is invalid, since the throw precedes every assignment. -/
def transition {α : Type} (m : StateMachine α) (dst : Phase)
    (data : Option α) (error : Option JsErr) (now : Int) :
    StateMachine α × Except TransErr (Snapshot α) :=
  if isValidTransition m.state dst then
    let newData := match data with
      | some v => some v
      | none => m.data
    let snap : Snapshot α := ⟨dst, newData, error, now⟩
    (⟨dst, newData, error, m.history ++ [snap]⟩, .ok snap)
  else
    (m, .error (.invalidTransition m.state dst))

/-- `StateMachine.reset`. -/
def smReset {α : Type} (_ : StateMachine α) : StateMachine α := .initial

/-- The machines reachable from a fresh machine by `transition` calls — the
"valid transition sequences starting at idle" (invalid attempts leave the
machine unchanged). -/
inductive Reaches {α : Type} : StateMachine α → Prop where
  | init : Reaches .initial
  | step (m : StateMachine α) (dst : Phase) (data : Option α)
      (error : Option JsErr) (now : Int) :
      Reaches m → Reaches (transition m dst data error now).1

/-- The phases of a snapshot list form a chain of table-valid steps out of
`src`. -/
def chainedFrom {α : Type} (src : Phase) : List (Snapshot α) → Prop
  | [] => True
  | s :: rest => isValidTransition src s.state = true ∧ chainedFrom s.state rest

/-- The phase at the end of a history, starting from `src`. -/
def endPhase {α : Type} (src : Phase) (hs : List (Snapshot α)) : Phase :=
  hs.foldl (fun _ s => s.state) src

/-! ## Request coordinator (`request-handler` plugin) -/

/-- The dedup state of `RequestHandler`: the `pendingRequests` map from cache
key to the shared in-flight future (futures are numbered), plus a counter of
network operations actually started. -/
structure RHState where
  pending : List (String × Nat) := []
  nextFuture : Nat := 0
  started : Nat := 0
deriving DecidableEq

/-- `RequestHandler.fetch`, dedup step: if the key already has a pending
request, return that same future without starting anything; otherwise start
the underlying operation (a fresh future) and record it. -/
def rhFetch (s : RHState) (key : String) : RHState × Nat :=
  match mapGet s.pending key with
  | some fid => (s, fid)
  | none =>
    (⟨mapSet s.pending key s.nextFuture, s.nextFuture + 1, s.started + 1⟩,
     s.nextFuture)

/-- The `finally` of `RequestHandler.fetch`: the pending entry is deleted when
the shared future settles. -/
def rhSettle (s : RHState) (key : String) : RHState :=
  { s with pending := mapDelete s.pending key }

/-- The observable outcome of `withRetry`: the settled value, a propagated
attempt error, or the unreachable fall-through `throw new Error('Retry
failed')`. -/
inductive RetryRes (ε τ : Type) where
  | ok (t : τ)
  | fail (e : ε)
  | exhausted
deriving DecidableEq

/-- A run of `RequestHandler.withRetry`: its result, how many times `fn` was
invoked, and the backoff delays awaited between consecutive attempts, in
order. -/
structure RetryTrace (ε τ : Type) where
  result : RetryRes ε τ
  calls : Nat
  delays : List Int
deriving DecidableEq

/-- The loop of `withRetry`: attempt `i` with `remaining` iterations left; on
failure of a non-final attempt await `delay(i * 1000)` and continue, on
failure of the final attempt rethrow the original error. -/
def withRetryAux {ε τ : Type} (outcomes : Nat → Except ε τ) :
    Nat → Nat → List Int → RetryTrace ε τ
  | _, 0, ds => ⟨.exhausted, 0, ds⟩
  | i, r + 1, ds =>
    match outcomes i with
    | .ok v => ⟨.ok v, i + 1, ds⟩
    | .error e =>
      if r = 0 then ⟨.fail e, i + 1, ds⟩
      else withRetryAux outcomes (i + 1) r (ds ++ [(i : Int) * 1000])

/-- `RequestHandler.withRetry(fn, retry = 3)`: `attempts` is `retry` when a
number was supplied, else 3; `outcomes i` is what the `i`-th invocation of
`fn` settles to. -/
def withRetry {ε τ : Type} (outcomes : Nat → Except ε τ) (retry : Option Nat) :
    RetryTrace ε τ :=
  withRetryAux outcomes 0 (retry.getD 3) []

/-! ## Cache key generation (`src/core/url-parser.ts`) -/

/-- The comparator of `generateCacheKey`'s sort: `a.localeCompare(b)`,
modelled as the linear order on strings. -/
def keyLeB (a b : String × String) : Bool := decide (a.1 ≤ b.1)

/-- `generateCacheKey(url, params)`: serialize the parameters sorted by name
as `k:v` joined with commas, producing `` url|sorted ``.  (The source's
`params ? … : url` guard always takes the first branch: a parameter object is
truthy even when empty.) -/
def generateCacheKey (url : String) (params : List (String × String)) : String :=
  let sorted := params.mergeSort keyLeB
  url ++ "|" ++ String.intercalate "," (sorted.map fun p => p.1 ++ ":" ++ p.2)

/-! ## Query controller (`src/query.ts`) -/

/-- Apply the optional `select` transform (`applySelect`). -/
def applySelect {α : Type} (sel : Option (α → α)) (d : α) : α :=
  match sel with
  | some f => f d
  | none => d

/-- The value-relevant branching of `QueryInstance.fetch`: a disabled query
returns the placeholder (or `undefined`) without any activity; otherwise a
fresh cache hit resolves immediately to the selected cached value; otherwise
the coordinator's outcome decides between selected data and a rethrown typed
error. -/
def queryFetch {α : Type} (enabled : Bool) (placeholder : Option α)
    (cached : Option α) (net : Except JsErr α) (sel : Option (α → α)) :
    Except JsErr (Option α) :=
  if enabled = false then .ok placeholder
  else
    match cached with
    | some c => .ok (some (applySelect sel c))
    | none =>
      match net with
      | .ok d => .ok (some (applySelect sel d))
      | .error e => .error e

/-- The tagged result of `fetchSafe`. -/
structure SafeResult (α : Type) where
  data : Option α
  error : Option JsErr
deriving DecidableEq

/-- `QueryInstance.fetchSafe`: await `fetch()` in a `try`, tagging the
resolution as `{data, error: null}` and the rejection as
`{data: null, error}`. -/
def fetchSafe {α : Type} (enabled : Bool) (placeholder : Option α)
    (cached : Option α) (net : Except JsErr α) (sel : Option (α → α)) :
    SafeResult α :=
  match queryFetch enabled placeholder cached net sel with
  | .ok d => ⟨d, none⟩
  | .error e => ⟨none, some e⟩

/-! ## Mutation controller (`src/subscribe-transports.ts` MutationInstance)
    and the kernel event registrations of the cache-manager plugin -/

/-- The payloads of the kernel events that touch the cache. -/
inductive KPayload (α : Type) where
  | querySuccess (key : String) (data : α) (staleTime cacheTime : Option Int)
  | invalidate (arg : InvalidateArg)
  | invalidateAuto (url : String)
  | mutationRollback
deriving DecidableEq

/-- `kernel.emit(event, payload)` restricted to its effect on the shared
cache: the cache-manager plugin registers exactly three listeners —
`query:success` (write the data), `cache:invalidate` (pattern/compound
delete) and `cache:invalidate:auto` (relationship invalidation).  Every other
event name — `mutation:rollback` included — has no registered listener and
leaves the cache untouched. -/
def kernelCacheEmit {α : Type} (event : String) (p : KPayload α) (now : Int)
    (c : CacheManager α) : CacheManager α :=
  if event = "query:success" then
    match p with
    | .querySuccess key data st ct => cmSet c key data st ct now
    | _ => c
  else if event = "cache:invalidate" then
    match p with
    | .invalidate arg => cmInvalidate c arg
    | _ => c
  else if event = "cache:invalidate:auto" then
    match p with
    | .invalidateAuto url => cmInvalidateRelated c url
    | _ => c
  else c

/-- The `invalidates` mutation option: absent, `'auto'`, or an explicit
pattern list. -/
inductive InvalidatesOpt where
  | noInvalidate
  | auto
  | list (pats : List String)
deriving DecidableEq

/-- What a failed or successful `MutationInstance.mutate(variables)` call does
to the shared cache, and what it settles to.  Following the source in order:
the optimistic updater (when configured) runs against the live cache before
the network write; on network success, `handleInvalidation` dispatches the
configured invalidation events; on network failure, `rollback()` merely emits
`mutation:rollback` — an event with no registered listener — and the typed
error is rethrown after the `error` transition.  No step of the failure path
writes the snapshotted prior values back. -/
def mutateModel {α : Type} (c : CacheManager α)
    (optimistic : Option (CacheManager α → CacheManager α))
    (invalidates : InvalidatesOpt) (urlTemplate : String)
    (net : Except JsErr α) (now : Int) : CacheManager α × Except JsErr α :=
  let c1 := match optimistic with
    | some f => f c
    | none => c
  match net with
  | .ok d =>
    let c2 := match invalidates with
      | .auto => kernelCacheEmit "cache:invalidate:auto" (.invalidateAuto urlTemplate) now c1
      | .list pats => kernelCacheEmit "cache:invalidate" (.invalidate (.segs pats)) now c1
      | .noInvalidate => c1
    (c2, .ok d)
  | .error e =>
    let c2 := kernelCacheEmit "mutation:rollback" (KPayload.mutationRollback : KPayload α) now c1
    (c2, .error e)

/-- Did the call return normally (rather than throw)? -/
def exceptIsOk {ε α : Type} : Except ε α → Bool
  | .ok _ => true
  | .error _ => false

/-- The transition table of the claim, as explicit pairs:
`idle→loading; loading→success|error; success→loading|stale;
error→loading|idle; stale→loading`. -/
def validPairs : List (Phase × Phase) :=
  [(.idle, .loading), (.loading, .success), (.loading, .error),
   (.success, .loading), (.success, .stale), (.error, .loading),
   (.error, .idle), (.stale, .loading)]

/-- The sort order of `generateCacheKey`, as a proposition. -/
def keyLeProp (a b : String × String) : Prop := a.1 ≤ b.1

/-- Scenario store: cached entries and relationship metadata for
`/users/123` and `/users/123/posts`, both carrying the `id = 123`
parameter (metadata registered through `setMeta`). -/
def storeUsersPosts : CacheManager Nat :=
  cmSetMeta (cmSetMeta
    (cmSet (cmSet .empty "/users/123" 1 none none 0) "/users/123/posts" 2 none none 0)
    "/users/123" ⟨"/users/123", [("id", "123")]⟩)
    "/users/123/posts" ⟨"/users/123/posts", [("id", "123")]⟩

/-- Scenario store: cached entries and relationship metadata for
`/users/123` and `/orders/55`. -/
def storeUsersOrders : CacheManager Nat :=
  cmSetMeta (cmSetMeta
    (cmSet (cmSet .empty "/users/123" 1 none none 0) "/orders/55" 2 none none 0)
    "/users/123" ⟨"/users/123", [("id", "123")]⟩)
    "/orders/55" ⟨"/orders/55", [("id", "55")]⟩

end QueryFlow

namespace QueryFlow

/-! ## Helper lemmas -/

theorem mapGet_mapSet_self {β : Type} :
    ∀ (l : List (String × β)) (k : String) (v : β),
      mapGet (mapSet l k v) k = some v := by
  intro l k v
  induction l with
  | nil => simp [mapSet, mapGet]
  | cons kv rest ih =>
    by_cases h : kv.1 = k
    · simp [mapSet, mapGet, h]
    · simpa [mapSet, mapGet, h] using ih

theorem mapGet_some_mem_keys {β : Type} :
    ∀ (l : List (String × β)) (k : String) (v : β),
      mapGet l k = some v → k ∈ l.map Prod.fst := by
  intro l k v
  induction l with
  | nil => simp [mapGet]
  | cons kv rest ih =>
    by_cases h : kv.1 = k
    · simp [mapGet, h]
    · intro hg
      simp only [mapGet, h, if_neg] at hg
      exact List.mem_cons_of_mem _ (ih hg)

theorem isValid_iff_mem_validPairs (s t : Phase) :
    isValidTransition s t = true ↔ (s, t) ∈ validPairs := by
  cases s <;> cases t <;> decide

theorem transition_isOk {α : Type} (m : StateMachine α) (dst : Phase)
    (d : Option α) (e : Option JsErr) (now : Int) :
    exceptIsOk (transition m dst d e now).2 = isValidTransition m.state dst := by
  by_cases h : isValidTransition m.state dst <;> simp [transition, h, exceptIsOk]

theorem endPhase_append {α : Type} (src : Phase) (hs : List (Snapshot α))
    (s : Snapshot α) : endPhase src (hs ++ [s]) = s.state := by
  simp [endPhase, List.foldl_append]

theorem chainedFrom_append {α : Type} :
    ∀ (hs : List (Snapshot α)) (src : Phase) (s : Snapshot α),
      chainedFrom src (hs ++ [s]) ↔
        chainedFrom src hs ∧ isValidTransition (endPhase src hs) s.state = true := by
  intro hs
  induction hs with
  | nil => intro src s; simp [chainedFrom, endPhase]
  | cons a t ih =>
    intro src s
    constructor
    · rintro ⟨h1, h2⟩
      have h3 := (ih a.state s).mp h2
      exact ⟨⟨h1, h3.1⟩, h3.2⟩
    · rintro ⟨⟨h1, h2⟩, h3⟩
      exact ⟨h1, (ih a.state s).mpr ⟨h2, h3⟩⟩

/-- The reachability invariant: a reachable machine's history chains out of
`idle` through the transition table, and its current state is the history's
final phase. -/
theorem reaches_inv {α : Type} (m : StateMachine α) (h : Reaches m) :
    chainedFrom Phase.idle m.history ∧ m.state = endPhase Phase.idle m.history := by
  induction h with
  | init => exact ⟨trivial, rfl⟩
  | step m dst d e now _ ih =>
    by_cases hv : isValidTransition m.state dst
    · simp only [transition, hv, if_pos]
      refine ⟨?_, ?_⟩
      · exact (chainedFrom_append m.history Phase.idle _).mpr
          ⟨ih.1, by rw [← ih.2]; exact hv⟩
      · rw [endPhase_append]
    · simpa [transition, hv] using ih

/-- Two key-sorted association lists with the same entries and no duplicate
names are identical. -/
theorem assocSortedEq (l1 : List (String × String)) :
    ∀ (l2 : List (String × String)), l1.Perm l2 →
      l1.Pairwise keyLeProp → l2.Pairwise keyLeProp →
      (l1.map Prod.fst).Nodup → l1 = l2 := by
  induction l1 with
  | nil =>
    intro l2 hp _ _ _
    exact (hp.symm.eq_nil).symm
  | cons a t1 ih =>
    intro l2 hp hs1 hs2 hnd
    cases l2 with
    | nil => exact absurd hp.eq_nil (by simp)
    | cons b t2 =>
      have hab : a = b := by
        have ha : a ∈ b :: t2 := hp.subset (List.mem_cons_self a t1)
        have hb : b ∈ a :: t1 := hp.symm.subset (List.mem_cons_self b t2)
        rcases List.mem_cons.mp hb with hba | hbt1
        · exact hba.symm
        · have h1 : keyLeProp a b := (List.pairwise_cons.mp hs1).1 b hbt1
          rcases List.mem_cons.mp ha with hab2 | hat2
          · exact hab2
          · have h2 : keyLeProp b a := (List.pairwise_cons.mp hs2).1 a hat2
            have heq : b.1 = a.1 := le_antisymm h2 h1
            have hmem : b.1 ∈ t1.map Prod.fst := List.mem_map_of_mem Prod.fst hbt1
            rw [heq] at hmem
            exact absurd hmem (List.nodup_cons.mp hnd).1
      subst hab
      have hrec := ih t2 hp.cons_inv hs1.of_cons hs2.of_cons
        (List.nodup_cons.mp hnd).2
      rw [hrec]

/-! ## Claims -/

/-- C1 — evaluation of the code at the failing input.  A mutation whose
optimistic function sets cache key `K` to `42` over a cache where `K` was
absent, followed by a transport failure (`HTTP 500`): `mutate()` rejects with
the transport error, yet afterwards `K` still holds `42` — the optimistic
value — because `rollback()` only emits the `mutation:rollback` event, for
which no listener is registered, and nothing restores the pre-mutation
absence.  The claim (and §4.5/§8 of the spec, and the repository's own docs
advertising automatic rollback) requires `K` to be absent again. -/
theorem c1_rollback_not_restored_eval :
    cmGet (CacheManager.empty : CacheManager Nat) "K" 0 = none
    ∧ (mutateModel (CacheManager.empty : CacheManager Nat)
        (some fun c => cmSet c "K" 42 none none 0) .noInvalidate "/users/:id"
        (.error (.network "HTTP 500: Internal Server Error")) 0).2
      = .error (.network "HTTP 500: Internal Server Error")
    ∧ cmGet (mutateModel (CacheManager.empty : CacheManager Nat)
        (some fun c => cmSet c "K" 42 none none 0) .noInvalidate "/users/:id"
        (.error (.network "HTTP 500: Internal Server Error")) 0).1 "K" 0
      = some 42 := by
  refine ⟨rfl, rfl, rfl⟩

/-- C2 — for every machine reachable from `idle` by transition calls:
`transition(to)` succeeds exactly when `(current state, to)` is in the table
`idle→loading; loading→success|error; success→loading|stale; error→loading|idle;
stale→loading`; every recorded snapshot's phase is the target of a table-valid
step (the history chains out of `idle`); and an invalid attempt fails with the
`InvalidTransition` error and leaves state, data, error and history unchanged. -/
theorem c2_lifecycle_transitions {α : Type} (m : StateMachine α) (h : Reaches m)
    (dst : Phase) (d : Option α) (e : Option JsErr) (now : Int) :
    (exceptIsOk (transition m dst d e now).2 = true ↔ (m.state, dst) ∈ validPairs)
    ∧ (isValidTransition m.state dst = false →
        (transition m dst d e now).1 = m
        ∧ (transition m dst d e now).2 = .error (.invalidTransition m.state dst))
    ∧ chainedFrom Phase.idle m.history := by
  refine ⟨?_, ?_, (reaches_inv m h).1⟩
  · rw [transition_isOk]
    exact isValid_iff_mem_validPairs m.state dst
  · intro hv
    simp [transition, hv]

/-- Witness for C2 at the fresh machine and the `idle → loading` call. -/
theorem c2_lifecycle_transitions_witness :
    (exceptIsOk (transition (StateMachine.initial : StateMachine Nat) .loading none none 0).2 = true
      ↔ (Phase.idle, Phase.loading) ∈ validPairs)
    ∧ (isValidTransition Phase.idle Phase.loading = false →
        (transition (StateMachine.initial : StateMachine Nat) .loading none none 0).1
          = StateMachine.initial
        ∧ (transition (StateMachine.initial : StateMachine Nat) .loading none none 0).2
          = .error (.invalidTransition Phase.idle Phase.loading))
    ∧ chainedFrom Phase.idle (StateMachine.initial : StateMachine Nat).history :=
  c2_lifecycle_transitions StateMachine.initial Reaches.init .loading none none 0

/-- C3 — counterexample.  On a store holding entries (with relationship
metadata) for `/users/123` and `/users/123/posts`, the claim states that
`invalidateRelated('/users/123')` removes both; in fact the `/users/123`
entry survives the call, because `isRelated` judges identical endpoint
templates unrelated (its first clause). -/
theorem c3_invalidateRelated_counterexample :
    cmHas (cmInvalidateRelated storeUsersPosts "/users/123") "/users/123" = true := by
  decide

/-- C3 — amended: `invalidateRelated('/users/123')` removes the dependent
`/users/123/posts` entry (prefix containment) but never the entry whose
endpoint is identical to the argument, so `/users/123` itself stays; on a
store holding `/users/123` and `/orders/55` it removes neither.  (The
scenarios register metadata through `setMeta`; `set` alone records none.) -/
theorem c3_invalidateRelated_amended :
    (cmHas (cmInvalidateRelated storeUsersPosts "/users/123") "/users/123" = true
      ∧ cmHas (cmInvalidateRelated storeUsersPosts "/users/123") "/users/123/posts" = false)
    ∧ (cmHas (cmInvalidateRelated storeUsersOrders "/users/123") "/users/123" = true
      ∧ cmHas (cmInvalidateRelated storeUsersOrders "/users/123") "/orders/55" = true) := by
  decide

/-- C4 — `read(key)` returns the stored data exactly when the entry exists
and its age does not exceed its staleness window (`now − writtenAt >
staleAfterMs` masks it), and absent when the entry is missing; a stale entry
is not deleted — its key remains in `keys()` (and `get` never mutates the
store, by construction a pure function of it).  Writing with `staleAfterMs
= -1` makes an immediate read absent; with `staleAfterMs = 10000` an
immediate read returns the written value. -/
theorem c4_read_staleness {α : Type} (s : CacheManager α) (key : String) (now : Int) :
    (mapGet s.cache key = none → cmGet s key now = none)
    ∧ (∀ e : CacheEntry α, mapGet s.cache key = some e →
        cmGet s key now = (if now - e.timestamp > e.staleTime then none else some e.data)
        ∧ cmHas s key = true ∧ key ∈ cmKeys s)
    ∧ (∀ v : α, cmGet (cmSet s key v (some (-1)) none now) key now = none)
    ∧ (∀ v : α, cmGet (cmSet s key v (some 10000) none now) key now = some v) := by
  refine ⟨?_, ?_, ?_, ?_⟩
  · intro h; simp [cmGet, h]
  · intro e he
    refine ⟨?_, ?_, mapGet_some_mem_keys s.cache key e he⟩
    · simp [cmGet, he, isStale]
    · simp [cmHas, he]
  · intro v
    simp only [cmGet, cmSet, mapGet_mapSet_self, isStale, Option.getD]
    norm_num
  · intro v
    simp only [cmGet, cmSet, mapGet_mapSet_self, isStale, Option.getD]
    norm_num

/-- Witness for C4 on a one-entry store. -/
theorem c4_read_staleness_witness :
    cmGet (cmSet (CacheManager.empty : CacheManager Nat) "k" 5 (some (-1)) none 0) "k" 0 = none
    ∧ cmGet (cmSet (CacheManager.empty : CacheManager Nat) "k" 5 (some 10000) none 0) "k" 0 = some 5
    ∧ cmHas (cmSet (CacheManager.empty : CacheManager Nat) "k" 5 (some (-1)) none 0) "k" = true :=
  ⟨(c4_read_staleness CacheManager.empty "k" 0).2.2.1 5,
   (c4_read_staleness CacheManager.empty "k" 0).2.2.2 5,
   ((c4_read_staleness (cmSet (CacheManager.empty : CacheManager Nat) "k" 5 (some (-1)) none 0) "k" 0).2.1
      ⟨5, 0, -1, 300000⟩ rfl).2.1⟩

/-- C5 — when a second `fetch` arrives for a key whose request is still in
flight, the handler hands back the very same pending future instead of
starting a new operation: across the two calls exactly one network operation
is started, the second call leaves the state untouched, and both callers hold
the same future (hence resolve to the same value). -/
theorem c5_dedup_single_flight (s : RHState) (key : String)
    (h : mapGet s.pending key = none) :
    (rhFetch (rhFetch s key).1 key).2 = (rhFetch s key).2
    ∧ (rhFetch (rhFetch s key).1 key).1 = (rhFetch s key).1
    ∧ (rhFetch (rhFetch s key).1 key).1.started = s.started + 1 := by
  simp [rhFetch, h, mapGet_mapSet_self]

/-- Witness for C5 from the empty handler state. -/
theorem c5_dedup_single_flight_witness :
    (rhFetch (rhFetch ({} : RHState) "k").1 "k").2 = (rhFetch ({} : RHState) "k").2
    ∧ (rhFetch (rhFetch ({} : RHState) "k").1 "k").1 = (rhFetch ({} : RHState) "k").1
    ∧ (rhFetch (rhFetch ({} : RHState) "k").1 "k").1.started = ({} : RHState).started + 1 :=
  c5_dedup_single_flight {} "k" rfl

/-- C6 — under the default policy (`retry` not a number) a request whose
attempts all fail is attempted exactly 3 times; the backoff delay awaited
after the failing attempt of index `i` is `i * 1000` ms (so the delays
between consecutive attempts are `0, 1000`), and the error of the final
attempt propagates unwrapped as the result. -/
theorem c6_retry_policy {ε τ : Type} (outcomes : Nat → Except ε τ)
    (e0 e1 e2 : ε) (h0 : outcomes 0 = .error e0) (h1 : outcomes 1 = .error e1)
    (h2 : outcomes 2 = .error e2) :
    withRetry outcomes none = ⟨.fail e2, 3, [0, 1000]⟩ := by
  simp [withRetry, withRetryAux, h0, h1, h2]

/-- Witness for C6 with an always-failing operation. -/
theorem c6_retry_policy_witness :
    withRetry (fun _ => (Except.error "boom" : Except String Nat)) none
      = ⟨.fail "boom", 3, [0, 1000]⟩ :=
  c6_retry_policy (fun _ => (Except.error "boom" : Except String Nat))
    "boom" "boom" "boom" rfl rfl rfl

/-- C7 — `update(key, fn)` throws `NotFound` when the key is absent, leaving
the cache unchanged; throws `UpdateFailed` when `fn` throws, leaving the
entry's prior data intact (the assignment never ran); and on a normal return
replaces the entry's data with `fn(prior data)`. -/
theorem c7_update_errors {α : Type} (s : CacheManager α) (key : String)
    (fn : α → Except Unit α) :
    (mapGet s.cache key = none → cmUpdate s key fn = (s, .error (.notFound key)))
    ∧ (∀ e : CacheEntry α, mapGet s.cache key = some e → ∀ u, fn e.data = .error u →
        cmUpdate s key fn = (s, .error (.updateFailed key)))
    ∧ (∀ (e : CacheEntry α) (d : α), mapGet s.cache key = some e → fn e.data = .ok d →
        (cmUpdate s key fn).2 = .ok ()
        ∧ mapGet (cmUpdate s key fn).1.cache key = some { e with data := d }) := by
  refine ⟨?_, ?_, ?_⟩
  · intro h; simp [cmUpdate, h]
  · intro e he u hu; simp [cmUpdate, he, hu]
  · intro e d he hd
    constructor
    · simp [cmUpdate, he, hd]
    · simp [cmUpdate, he, hd, mapGet_mapSet_self]

/-- Witness for C7: `NotFound` on the empty store, and a successful update. -/
theorem c7_update_errors_witness :
    cmUpdate (CacheManager.empty : CacheManager Nat) "k" (fun x => .ok (x + 1))
      = (CacheManager.empty, .error (.notFound "k"))
    ∧ (cmUpdate (cmSet (CacheManager.empty : CacheManager Nat) "k" 5 none none 0) "k"
        (fun x => .ok (x + 1))).2 = .ok () :=
  ⟨(c7_update_errors CacheManager.empty "k" (fun x => .ok (x + 1))).1 rfl,
   ((c7_update_errors (cmSet (CacheManager.empty : CacheManager Nat) "k" 5 none none 0) "k"
      (fun x => .ok (x + 1))).2.2 ⟨5, 0, 5000, 300000⟩ 6 rfl rfl).1⟩

/-- C8 — `fetchSafe()` never throws: it is a total function of the same
inputs as `fetch()`, returning `{data, error: null}` exactly when `fetch()`
would resolve with that data, and `{data: null, error}` carrying the identical
error value that `fetch()` would have thrown; exactly one side of the tag is
populated on the error path and the error is `null` on the data path. -/
theorem c8_fetchSafe_total {α : Type} (enabled : Bool) (placeholder cached : Option α)
    (net : Except JsErr α) (sel : Option (α → α)) :
    (∀ d, queryFetch enabled placeholder cached net sel = .ok d →
      fetchSafe enabled placeholder cached net sel = ⟨d, none⟩)
    ∧ (∀ e, queryFetch enabled placeholder cached net sel = .error e →
      fetchSafe enabled placeholder cached net sel = ⟨none, some e⟩)
    ∧ ((fetchSafe enabled placeholder cached net sel).error = none
      ∨ (fetchSafe enabled placeholder cached net sel).data = none) := by
  refine ⟨?_, ?_, ?_⟩
  · intro d hd; simp [fetchSafe, hd]
  · intro e he; simp [fetchSafe, he]
  · cases h : queryFetch enabled placeholder cached net sel <;> simp [fetchSafe, h]

/-- Witness for C8 on a failing network fetch with an empty cache. -/
theorem c8_fetchSafe_total_witness :
    fetchSafe true none none (Except.error (.network "x") : Except JsErr Nat) none
      = ⟨none, some (.network "x")⟩ :=
  (c8_fetchSafe_total true none none (Except.error (.network "x")) none).2.1
    (.network "x") rfl

/-- C9 — the cache key generator is order-insensitive in its parameters:
for any endpoint template and any two parameter lists holding the same
name-value pairs (in any order, names distinct as in a JS object), it
produces the same key string, because the serialization sorts by name. -/
theorem c9_cacheKey_order_invariant (url : String)
    (l1 l2 : List (String × String)) (hp : l1.Perm l2)
    (hnd : (l1.map Prod.fst).Nodup) :
    generateCacheKey url l1 = generateCacheKey url l2 := by
  unfold generateCacheKey
  have htrans : ∀ (a b c : String × String),
      keyLeB a b → keyLeB b c → keyLeB a c := by
    intro a b c hab hbc
    simp only [keyLeB, decide_eq_true_eq] at hab hbc ⊢
    exact le_trans hab hbc
  have htot : ∀ (a b : String × String), (keyLeB a b || keyLeB b a) = true := by
    intro a b
    rcases le_total a.1 b.1 with h | h <;> simp [keyLeB, h]
  have hs1 : (l1.mergeSort keyLeB).Pairwise keyLeProp :=
    (List.sorted_mergeSort htrans htot l1).imp
      (fun hb => of_decide_eq_true hb)
  have hs2 : (l2.mergeSort keyLeB).Pairwise keyLeProp :=
    (List.sorted_mergeSort htrans htot l2).imp
      (fun hb => of_decide_eq_true hb)
  have hperm : (l1.mergeSort keyLeB).Perm (l2.mergeSort keyLeB) :=
    ((l1.mergeSort_perm keyLeB).trans hp).trans (l2.mergeSort_perm keyLeB).symm
  have hnd' : ((l1.mergeSort keyLeB).map Prod.fst).Nodup :=
    (((l1.mergeSort_perm keyLeB).map Prod.fst).nodup_iff).mpr hnd
  rw [assocSortedEq (l1.mergeSort keyLeB) (l2.mergeSort keyLeB) hperm hs1 hs2 hnd']

/-- Witness for C9 on two orderings of the same parameter pairs. -/
theorem c9_cacheKey_order_invariant_witness :
    generateCacheKey "/users/:id" [("b", "2"), ("a", "1")]
      = generateCacheKey "/users/:id" [("a", "1"), ("b", "2")] :=
  c9_cacheKey_order_invariant "/users/:id" [("b", "2"), ("a", "1")]
    [("a", "1"), ("b", "2")] (by decide) (by decide)

/-- C10 — a valid `transition` call that omits the `error` argument resets
the stored error to null (the previous error is erased), while omitting the
`data` argument preserves the previously stored data; the stored error is
exactly the passed argument, the stored data is the merge `data ?? previous`,
and the appended snapshot records these merged values. -/
theorem c10_transition_merge {α : Type} (m : StateMachine α) (dst : Phase)
    (d : Option α) (e : Option JsErr) (now : Int)
    (h : isValidTransition m.state dst = true) :
    (transition m dst d e now).1.error = e
    ∧ (transition m dst d e now).1.data
      = (match d with | some v => some v | none => m.data)
    ∧ (transition m dst d e now).1.history
      = m.history ++ [⟨dst, (match d with | some v => some v | none => m.data), e, now⟩]
    ∧ (transition m dst d e now).2
      = .ok ⟨dst, (match d with | some v => some v | none => m.data), e, now⟩ := by
  simp [transition, h]

/-- Witness for C10: a `success` transition omitting both arguments erases
the previous error and keeps the previous data. -/
theorem c10_transition_merge_witness :
    (transition (⟨.loading, some 3, some (.generic "boom"), []⟩ : StateMachine Nat)
        .success none none 7).1.error = none
    ∧ (transition (⟨.loading, some 3, some (.generic "boom"), []⟩ : StateMachine Nat)
        .success none none 7).1.data = some 3
    ∧ (transition (⟨.loading, some 3, some (.generic "boom"), []⟩ : StateMachine Nat)
        .success none none 7).1.history = [⟨.success, some 3, none, 7⟩]
    ∧ (transition (⟨.loading, some 3, some (.generic "boom"), []⟩ : StateMachine Nat)
        .success none none 7).2 = .ok ⟨.success, some 3, none, 7⟩ :=
  c10_transition_merge ⟨.loading, some 3, some (.generic "boom"), []⟩
    .success none none 7 (by decide)

end QueryFlow
